import Mathlib

/-!
# Submission guard of `static/js/scripts.js`

A shallow embedding of the script and the properties of its submit handler.

The script has two functions:

* the `DOMContentLoaded` listener (lines 1-17), which looks up the first
  `form` and the elements with ids `start_time` and `end_time`, and attaches
  a `submit` listener to the form;
* the `submit` listener (lines 7-16), which reads the two `value`s, and when
  `startTime >= endTime` calls `alert` and then `event.preventDefault()`.

JavaScript strings are sequences of UTF-16 code units, and the relational
operators on two strings compare them code unit by code unit; both are
embedded as such.
-/

namespace SubmissionGuard

/-! ## Strings and their comparison -/

/-- A JavaScript string: its UTF-16 code units, in order. -/
abbrev JSString := List Nat

/-- The `<` operator on two strings: at the first index where the code units
differ the smaller code unit decides, and when one string is a prefix of the
other the shorter one is the smaller. -/
def strLt : JSString → JSString → Bool
  | [], [] => false
  | [], _ :: _ => true
  | _ :: _, [] => false
  | x :: xs, y :: ys =>
    if x < y then true else if y < x then false else strLt xs ys

/-- The `>=` operator on two strings: `a >= b` is the negation of `a < b`
(`a < b` is never undefined on strings). -/
def strGe (a b : JSString) : Bool := !strLt a b

/-! ## The page -/

/-- An element of the document: its tag name, its `id` attribute and its
current `value`. -/
structure Element where
  tag : String
  id : String
  value : JSString
deriving DecidableEq, Repr

/-- A reference to an element: its position in document order at the time of
the lookup. -/
abbrev ElemRef := Nat

/-- The document: its elements in document order. -/
structure Document where
  elements : List Element
deriving DecidableEq, Repr

/-- The error a script can throw here: property access on `null`. -/
inductive JSError where
  | typeError
deriving DecidableEq, Repr

/-- Position of the first element of a list satisfying `p`. -/
def firstIndex (p : Element → Bool) : List Element → Option ElemRef
  | [] => none
  | e :: es => if p e then some 0 else (firstIndex p es).map (· + 1)

/-- The lookup `document.querySelector(sel)` for a type selector: the first
element in document order with that tag name, or `null`. -/
def querySelector (doc : Document) (sel : String) : Option ElemRef :=
  firstIndex (fun e => e.tag == sel) doc.elements

/-- The lookup `document.getElementById(id)`: the first element in document
order with that id, or `null`. -/
def getElementById (doc : Document) (id : String) : Option ElemRef :=
  firstIndex (fun e => e.id == id) doc.elements

/-- The variables the `submit` listener closes over (both are `const`). -/
structure SubmitListener where
  startTimeInput : Option ElemRef
  endTimeInput : Option ElemRef
deriving DecidableEq, Repr

/-- The page: the document and the `submit` listeners attached to its
elements, in the order they were added. -/
structure Page where
  doc : Document
  listeners : List (ElemRef × SubmitListener)
deriving DecidableEq, Repr

/-- What a handler does that is visible outside it. -/
inductive Effect where
  | alert (message : String)
  | preventDefault
deriving DecidableEq, Repr

/-- The result of running the `submit` listener: the document it leaves, the
effects in program order, and the error thrown, if any. -/
structure Outcome where
  doc : Document
  effects : List Effect
  error : Option JSError
deriving DecidableEq, Repr

/-! ## The two functions of the script -/

/-- The property read `input.value` on a looked-up element: a `TypeError` on
`null`, otherwise the element's current value.  (A reference held by a
listener always points into the document; one that does not is read as
`null`.) -/
def readValue (doc : Document) : Option ElemRef → Except JSError JSString
  | none => .error .typeError
  | some r =>
    match doc.elements.get? r with
    | none => .error .typeError
    | some e => .ok e.value

/-- The text passed to `alert` (line 13). -/
def alertMessage : String := "Start time must be earlier than end time."

/-- The `submit` listener, lines 7-16. -/
def submitHandler (l : SubmitListener) (doc : Document) : Outcome :=
  match readValue doc l.startTimeInput with
  | .error err => ⟨doc, [], some err⟩
  | .ok startTime =>
    match readValue doc l.endTimeInput with
    | .error err => ⟨doc, [], some err⟩
    | .ok endTime =>
      if strGe startTime endTime then
        ⟨doc, [Effect.alert alertMessage, Effect.preventDefault], none⟩
      else
        ⟨doc, [], none⟩

/-- The `DOMContentLoaded` listener, lines 1-17: the page it leaves and the
error thrown, if any. -/
def init (page : Page) : Page × Option JSError :=
  let form := querySelector page.doc "form"
  let startTimeInput := getElementById page.doc "start_time"
  let endTimeInput := getElementById page.doc "end_time"
  match form with
  | none => (page, some .typeError)
  | some f =>
    ({ page with listeners := page.listeners ++ [(f, ⟨startTimeInput, endTimeInput⟩)] },
      none)

/-- The handler lets the submission proceed: it shows no alert and does not
call `preventDefault`. -/
def Outcome.allowed (o : Outcome) : Prop :=
  o.effects = []

/-- The handler blocks the submission: it shows the alert with the given
text, then calls `preventDefault`. -/
def Outcome.blocked (o : Outcome) : Prop :=
  o.effects = [Effect.alert alertMessage, Effect.preventDefault]

instance (o : Outcome) : Decidable o.allowed := by
  unfold Outcome.allowed; infer_instance

instance (o : Outcome) : Decidable o.blocked := by
  unfold Outcome.blocked; infer_instance

/-! ## The page over time

The listener's `startTimeInput` and `endTimeInput` are element objects (lines
4-5), looked up once; lines 9-10 read the `value` of those objects, wherever
they are in the tree by then.  Over the life of a page an element is
therefore known by its identity: the position it had in the document when
the page was loaded, or the next free number when it is created later. -/

/-- The page after loading.  `objects` holds every element object, indexed by
identity, with its current attributes; an object stays there, readable, when
it leaves the tree.  `tree` lists the attached objects in the current
document order. -/
structure LivePage where
  objects : Document
  tree : List ElemRef
deriving DecidableEq, Repr

/-- The page as just loaded: every element attached, in document order. -/
def LivePage.load (doc : Document) : LivePage :=
  ⟨doc, List.range doc.elements.length⟩

/-- The document a fresh lookup would see: the attached objects in the
current document order. -/
def LivePage.document (p : LivePage) : Document :=
  ⟨p.tree.filterMap p.objects.elements.get?⟩

/-- A change of the page between two submit events, by the user or by any
other script. -/
inductive Edit where
  | setValue (r : ElemRef) (v : JSString)
  | setId (r : ElemRef) (id : String)
  | insert (pos : Nat) (e : Element)
  | remove (r : ElemRef)
deriving DecidableEq, Repr

/-- Replace the object with identity `r` by its image under `f`. -/
def updateAt (f : Element → Element) : List Element → ElemRef → List Element
  | [], _ => []
  | e :: es, 0 => f e :: es
  | e :: es, r + 1 => e :: updateAt f es r

/-- The page after one change.  Assigning a `value` or an `id` changes that
object alone; a new element gets the next free identity and enters the tree
at position `pos`; a removed element leaves the tree and remains an
object. -/
def applyEdit (p : LivePage) : Edit → LivePage
  | .setValue r v =>
    ⟨⟨updateAt (fun e => { e with value := v }) p.objects.elements r⟩, p.tree⟩
  | .setId r i =>
    ⟨⟨updateAt (fun e => { e with id := i }) p.objects.elements r⟩, p.tree⟩
  | .insert pos e =>
    ⟨⟨p.objects.elements ++ [e]⟩,
      p.tree.take pos ++ [p.objects.elements.length] ++ p.tree.drop pos⟩
  | .remove r => ⟨p.objects, p.tree.filter (fun x => x != r)⟩

/-- A sequence of submit events handled by the same listener, each event
preceded by the changes made to the page since the previous one.  The
listener reads the objects it holds; the next event starts from what this
one left. -/
def submitSequence (l : SubmitListener) : List (List Edit) → LivePage → List Outcome
  | [], _ => []
  | edits :: rest, p =>
    let q := edits.foldl applyEdit p
    let o := submitHandler l q.objects
    o :: submitSequence l rest ⟨o.doc, q.tree⟩

/-- The page at the `k`-th submit event as the changes alone make it, no
handler having run. -/
def pageAt : List (List Edit) → LivePage → Nat → LivePage
  | [], p, _ => p
  | edits :: _, p, 0 => edits.foldl applyEdit p
  | edits :: rest, p, k + 1 => pageAt rest (edits.foldl applyEdit p) k

/-! ## The input format -/

/-- The string "HH:MM" of the time `h:m`, zero-padded; `48` is the digit
zero and `58` the colon. -/
def formatHHMM (h m : Nat) : JSString :=
  [48 + h / 10, 48 + h % 10, 58, 48 + m / 10, 48 + m % 10]

/-- A string is in "HH:MM" form: two digits, a colon, two digits, with hour
below 24 and minute below 60. -/
def isHHMM : JSString → Bool
  | [a, b, c, d, e] =>
    decide (48 ≤ a ∧ a ≤ 57 ∧ 48 ≤ b ∧ b ≤ 57 ∧ c = 58 ∧ 48 ≤ d ∧ d ≤ 57 ∧
      48 ≤ e ∧ e ≤ 57 ∧ 10 * (a - 48) + (b - 48) < 24 ∧ 10 * (d - 48) + (e - 48) < 60)
  | _ => false

/-- Minutes since midnight denoted by a time written as digits, a colon and
digits, padded or not; `none` when the string has no such reading. -/
def minutesOf (s : JSString) : Option Nat :=
  let isDigit := fun (c : Nat) => decide (48 ≤ c ∧ c ≤ 57)
  let number := fun (ds : List Nat) => ds.foldl (fun acc c => 10 * acc + (c - 48)) 0
  let hs := s.takeWhile isDigit
  match s.dropWhile isDigit with
  | 58 :: ms =>
    if hs ≠ [] ∧ ms ≠ [] ∧ ms.all isDigit ∧ number hs < 24 ∧ number ms < 60 then
      some (60 * number hs + number ms)
    else none
  | _ => none

/-- A page with one form holding the two time inputs with the given values. -/
def schedulePage (start stop : JSString) : Page :=
  ⟨⟨[⟨"form", "", []⟩, ⟨"input", "start_time", start⟩, ⟨"input", "end_time", stop⟩]⟩, []⟩

/-! ## Lemmas on the comparison -/

theorem strLt_iff_lex (a b : JSString) : strLt a b = true ↔ List.Lex (· < ·) a b := by
  induction a generalizing b with
  | nil =>
    cases b with
    | nil => simp [strLt, List.Lex.not_nil_right]
    | cons y ys => simp [strLt, List.Lex.nil]
  | cons x xs ih =>
    cases b with
    | nil => simp [strLt, List.Lex.not_nil_right]
    | cons y ys =>
      unfold strLt
      by_cases hxy : x < y
      · simp [hxy, List.Lex.rel hxy]
      · by_cases hyx : y < x
        · simp only [hxy, hyx, if_false, if_true]
          constructor
          · intro h; cases h
          · intro h
            cases h with
            | cons h => exact absurd hyx (lt_irrefl _)
            | rel h => exact absurd h hxy
        · have hEq : x = y := by omega
          subst hEq
          simp only [hxy, if_false]
          rw [ih ys]
          constructor
          · intro h; exact List.Lex.cons h
          · intro h
            cases h with
            | cons h => exact h
            | rel h => exact absurd h hxy

theorem strLt_irrefl (a : JSString) : strLt a a = false := by
  induction a with
  | nil => rfl
  | cons x xs ih => simp [strLt, ih]

theorem strLt_asymm (a b : JSString) (h : strLt a b = true) : strLt b a = false := by
  induction a generalizing b with
  | nil => cases b <;> simp_all [strLt]
  | cons x xs ih =>
    cases b with
    | nil => simp [strLt] at h
    | cons y ys =>
      unfold strLt at h ⊢
      by_cases hxy : x < y
      · have hyx : ¬ y < x := by omega
        simp [hyx, hxy]
      · by_cases hyx : y < x
        · simp [hxy, hyx] at h
        · simp only [hxy, hyx, if_false] at h ⊢
          exact ih ys h

/-- The code's `a >= b` holds exactly when `b` equals `a` or precedes it in
the lexicographic order. -/
theorem strGe_iff_lex (a b : JSString) :
    strGe a b = true ↔ (a = b ∨ List.Lex (· < ·) b a) := by
  unfold strGe
  constructor
  · intro h
    have hlt : strLt a b = false := by simpa using h
    clear h
    induction a generalizing b with
    | nil =>
      cases b with
      | nil => exact Or.inl rfl
      | cons y ys => simp [strLt] at hlt
    | cons x xs ih =>
      cases b with
      | nil => exact Or.inr List.Lex.nil
      | cons y ys =>
        unfold strLt at hlt
        by_cases hxy : x < y
        · simp [hxy] at hlt
        · by_cases hyx : y < x
          · exact Or.inr (List.Lex.rel hyx)
          · have hEq : x = y := by omega
            subst hEq
            simp only [hxy, if_false] at hlt
            rcases ih ys hlt with h | h
            · exact Or.inl (by rw [h])
            · exact Or.inr (List.Lex.cons h)
  · rintro (h | h)
    · subst h
      simp [strLt_irrefl]
    · have := strLt_asymm b a ((strLt_iff_lex b a).2 h)
      simp [this]

/-- On two "HH:MM" strings the code's `<` is the order of the minutes since
midnight. -/
theorem strLt_formatHHMM (h1 m1 h2 m2 : Nat) (hm1 : m1 < 60) (hm2 : m2 < 60) :
    strLt (formatHHMM h1 m1) (formatHHMM h2 m2) = true ↔ 60 * h1 + m1 < 60 * h2 + m2 := by
  simp only [formatHHMM, strLt]
  split_ifs <;> simp <;> omega

theorem isHHMM_formatHHMM (h m : Nat) (hh : h < 24) (hm : m < 60) :
    isHHMM (formatHHMM h m) = true := by
  simp only [formatHHMM, isHHMM, decide_eq_true_eq, Nat.add_sub_cancel_left, true_and]
  refine ⟨?_, ?_, ?_, ?_, ?_, ?_, ?_, ?_, ?_, ?_⟩ <;> omega

theorem isHHMM_exists (s : JSString) (hs : isHHMM s = true) :
    ∃ h m, h < 24 ∧ m < 60 ∧ s = formatHHMM h m := by
  match s, hs with
  | [a, b, c, d, e], hs =>
    simp only [isHHMM, decide_eq_true_eq] at hs
    refine ⟨10 * (a - 48) + (b - 48), 10 * (d - 48) + (e - 48), hs.2.2.2.2.2.2.2.2.2.1,
      hs.2.2.2.2.2.2.2.2.2.2, ?_⟩
    simp only [formatHHMM, List.cons.injEq, and_true]
    omega

/-! ## Lemmas on the handler -/

/-- The handler on a page where both inputs are found and hold `a` and `b`. -/
theorem submitHandler_of_values (l : SubmitListener) (doc : Document) (a b : JSString)
    (hs : readValue doc l.startTimeInput = .ok a)
    (he : readValue doc l.endTimeInput = .ok b) :
    submitHandler l doc =
      if strGe a b then ⟨doc, [Effect.alert alertMessage, Effect.preventDefault], none⟩
      else ⟨doc, [], none⟩ := by
  simp only [submitHandler, hs, he]

theorem submitHandler_doc (l : SubmitListener) (doc : Document) :
    (submitHandler l doc).doc = doc := by
  unfold submitHandler
  split
  · rfl
  · split
    · rfl
    · split <;> rfl

theorem submitHandler_effects (l : SubmitListener) (doc : Document) :
    (submitHandler l doc).effects = [] ∨
      (submitHandler l doc).effects = [Effect.alert alertMessage, Effect.preventDefault] := by
  unfold submitHandler
  split
  · exact Or.inl rfl
  · split
    · exact Or.inl rfl
    · split
      · exact Or.inr rfl
      · exact Or.inl rfl

/-- Two runs of the handler that read the same start and the same end, or
fail the same way on them, have the same effects and the same error. -/
theorem submitHandler_congr (l₁ l₂ : SubmitListener) (d₁ d₂ : Document)
    (hs : readValue d₁ l₁.startTimeInput = readValue d₂ l₂.startTimeInput)
    (he : readValue d₁ l₁.endTimeInput = readValue d₂ l₂.endTimeInput) :
    (submitHandler l₁ d₁).effects = (submitHandler l₂ d₂).effects ∧
      (submitHandler l₁ d₁).error = (submitHandler l₂ d₂).error := by
  unfold submitHandler
  rw [hs, he]
  cases readValue d₂ l₂.startTimeInput with
  | error err => exact ⟨rfl, rfl⟩
  | ok x =>
    cases readValue d₂ l₂.endTimeInput with
    | error err => exact ⟨rfl, rfl⟩
    | ok y => by_cases hc : strGe x y = true <;> simp [hc]

theorem submitSequence_length (l : SubmitListener) (eds : List (List Edit)) (p : LivePage) :
    (submitSequence l eds p).length = eds.length := by
  induction eds generalizing p with
  | nil => rfl
  | cons edits rest ih => simp only [submitSequence, List.length_cons, ih]

/-- The outcome of the `k`-th event of a sequence is the outcome of the
handler on the page of that moment; the earlier events leave no trace. -/
theorem submitSequence_get (l : SubmitListener) (eds : List (List Edit)) (p : LivePage)
    (k : Nat) (o : Outcome) (ho : (submitSequence l eds p).get? k = some o) :
    o = submitHandler l (pageAt eds p k).objects := by
  induction eds generalizing p k with
  | nil => simp [submitSequence] at ho
  | cons edits rest ih =>
    cases k with
    | zero =>
      simp only [submitSequence, List.get?_cons_zero, Option.some.injEq] at ho
      simp only [pageAt]
      exact ho.symm
    | succ k =>
      simp only [submitSequence, List.get?_cons_succ, submitHandler_doc] at ho
      simp only [pageAt]
      exact ih _ k ho

/-! ## Lemmas on the lookups -/

theorem firstIndex_eq_none_iff (p : Element → Bool) (es : List Element) :
    firstIndex p es = none ↔ ∀ e ∈ es, p e = false := by
  induction es with
  | nil => simp [firstIndex]
  | cons e es ih =>
    unfold firstIndex
    by_cases hp : p e = true
    · simp [hp]
    · simp only [hp, Bool.false_eq_true, if_false, Option.map_eq_none', ih, List.mem_cons,
        forall_eq_or_imp, by simpa using hp, true_and]

theorem firstIndex_eq_some_iff (p : Element → Bool) (es : List Element) (i : ElemRef) :
    firstIndex p es = some i ↔
      (∃ e, es.get? i = some e ∧ p e = true) ∧
        ∀ j e, j < i → es.get? j = some e → p e = false := by
  induction es generalizing i with
  | nil => simp [firstIndex]
  | cons e es ih =>
    unfold firstIndex
    by_cases hp : p e = true
    · simp only [hp, if_true, Option.some.injEq]
      constructor
      · intro h
        subst h
        exact ⟨⟨e, rfl, hp⟩, fun j e' hj => absurd hj (Nat.not_lt_zero j)⟩
      · rintro ⟨_, hmin⟩
        cases i with
        | zero => rfl
        | succ k =>
          have := hmin 0 e (Nat.succ_pos k) rfl
          rw [hp] at this
          cases this
    · have hpf : p e = false := by simpa using hp
      simp only [hp, Bool.false_eq_true, if_false, Option.map_eq_some']
      constructor
      · rintro ⟨k, hk, rfl⟩
        obtain ⟨⟨e', he', hpe'⟩, hmin⟩ := (ih k).1 hk
        refine ⟨⟨e', by simpa using he', hpe'⟩, ?_⟩
        intro j e'' hj hget
        cases j with
        | zero =>
          simp only [List.get?_cons_zero, Option.some.injEq] at hget
          subst hget
          exact hpf
        | succ j' =>
          exact hmin j' e'' (by simpa using hj) (by simpa using hget)
      · rintro ⟨⟨e', he', hpe'⟩, hmin⟩
        cases i with
        | zero =>
          simp only [List.get?_cons_zero, Option.some.injEq] at he'
          subst he'
          rw [hpf] at hpe'
          cases hpe'
        | succ k =>
          refine ⟨k, (ih k).2 ⟨⟨e', by simpa using he', hpe'⟩, ?_⟩, rfl⟩
          intro j e'' hj hget
          exact hmin (j + 1) e'' (by simpa using hj) (by simpa using hget)

/-! ## Properties of the submit handler -/

/-- C1: for well-formed times `h1:m1` and `h2:m2` (hours below 24, minutes
below 60) written as zero-padded "HH:MM" strings, the submit handler lets
the submission proceed (no alert, no `preventDefault`) exactly when
`60*h1 + m1 < 60*h2 + m2`; the comparison `startTime >= endTime` decides the
chronological order within one day. -/
theorem submit_allowed_iff_chronological (l : SubmitListener) (doc : Document)
    (h1 m1 h2 m2 : Nat) (hh1 : h1 < 24) (hm1 : m1 < 60) (hh2 : h2 < 24) (hm2 : m2 < 60)
    (hs : readValue doc l.startTimeInput = .ok (formatHHMM h1 m1))
    (he : readValue doc l.endTimeInput = .ok (formatHHMM h2 m2)) :
    isHHMM (formatHHMM h1 m1) = true ∧ isHHMM (formatHHMM h2 m2) = true ∧
    ((submitHandler l doc).allowed ↔ 60 * h1 + m1 < 60 * h2 + m2) ∧
    ((submitHandler l doc).blocked ↔ 60 * h2 + m2 ≤ 60 * h1 + m1) ∧
    (strGe (formatHHMM h1 m1) (formatHHMM h2 m2) = true ↔ 60 * h2 + m2 ≤ 60 * h1 + m1) := by
  have hlt := strLt_formatHHMM h1 m1 h2 m2 hm1 hm2
  have hge : strGe (formatHHMM h1 m1) (formatHHMM h2 m2) = true ↔
      60 * h2 + m2 ≤ 60 * h1 + m1 := by
    unfold strGe
    rw [Bool.not_eq_true', ← Bool.not_eq_true, hlt]
    omega
  refine ⟨isHHMM_formatHHMM h1 m1 hh1 hm1, isHHMM_formatHHMM h2 m2 hh2 hm2, ?_, ?_, hge⟩
  · rw [submitHandler_of_values l doc _ _ hs he]
    by_cases hc : strGe (formatHHMM h1 m1) (formatHHMM h2 m2) = true
    · have := hge.1 hc
      simp only [hc, if_true, Outcome.allowed]
      constructor
      · intro h; cases h
      · intro h; omega
    · have : ¬ 60 * h2 + m2 ≤ 60 * h1 + m1 := fun h => hc (hge.2 h)
      simp only [hc, Outcome.allowed]
      constructor
      · intro _; omega
      · intro _; trivial
  · rw [submitHandler_of_values l doc _ _ hs he]
    by_cases hc : strGe (formatHHMM h1 m1) (formatHHMM h2 m2) = true
    · have := hge.1 hc
      simp only [hc, if_true, Outcome.blocked]
      constructor
      · intro _; exact this
      · intro _; trivial
    · have : ¬ 60 * h2 + m2 ≤ 60 * h1 + m1 := fun h => hc (hge.2 h)
      simp only [hc, Outcome.blocked]
      constructor
      · intro h; cases h
      · intro h; exact absurd h this

/-- Witness for C1: start "09:30" and end "17:05" on the schedule page. -/
theorem submit_allowed_iff_chronological_witness :
    isHHMM (formatHHMM 9 30) = true ∧ isHHMM (formatHHMM 17 5) = true ∧
    ((submitHandler ⟨some 1, some 2⟩
        (schedulePage (formatHHMM 9 30) (formatHHMM 17 5)).doc).allowed ↔
      60 * 9 + 30 < 60 * 17 + 5) ∧
    ((submitHandler ⟨some 1, some 2⟩
        (schedulePage (formatHHMM 9 30) (formatHHMM 17 5)).doc).blocked ↔
      60 * 17 + 5 ≤ 60 * 9 + 30) ∧
    (strGe (formatHHMM 9 30) (formatHHMM 17 5) = true ↔ 60 * 17 + 5 ≤ 60 * 9 + 30) :=
  submit_allowed_iff_chronological ⟨some 1, some 2⟩
    (schedulePage (formatHHMM 9 30) (formatHHMM 17 5)).doc 9 30 17 5
    (by decide) (by decide) (by decide) (by decide) rfl rfl

/-- C2: for strings `a` and `b` in "HH:MM" form with `a` before `b` in
lexicographic order, a submit event with start value `a` and end value `b`
shows no alert and does not call `preventDefault`, and throws nothing. -/
theorem submit_allowed_of_lex_lt (l : SubmitListener) (doc : Document) (a b : JSString)
    (_ha : isHHMM a = true) (_hb : isHHMM b = true) (hab : List.Lex (· < ·) a b)
    (hs : readValue doc l.startTimeInput = .ok a)
    (he : readValue doc l.endTimeInput = .ok b) :
    (submitHandler l doc).allowed ∧ (submitHandler l doc).error = none ∧
    (∀ m, Effect.alert m ∉ (submitHandler l doc).effects) ∧
    Effect.preventDefault ∉ (submitHandler l doc).effects := by
  have hlt : strLt a b = true := (strLt_iff_lex a b).2 hab
  have hge : strGe a b = false := by simp [strGe, hlt]
  rw [submitHandler_of_values l doc a b hs he]
  simp [hge, Outcome.allowed]

/-- Witness for C2: start "09:00", end "10:00". -/
theorem submit_allowed_of_lex_lt_witness :
    (submitHandler ⟨some 1, some 2⟩
      (schedulePage [48, 57, 58, 48, 48] [49, 48, 58, 48, 48]).doc).allowed ∧
    (submitHandler ⟨some 1, some 2⟩
      (schedulePage [48, 57, 58, 48, 48] [49, 48, 58, 48, 48]).doc).error = none ∧
    (∀ m, Effect.alert m ∉ (submitHandler ⟨some 1, some 2⟩
      (schedulePage [48, 57, 58, 48, 48] [49, 48, 58, 48, 48]).doc).effects) ∧
    Effect.preventDefault ∉ (submitHandler ⟨some 1, some 2⟩
      (schedulePage [48, 57, 58, 48, 48] [49, 48, 58, 48, 48]).doc).effects :=
  submit_allowed_of_lex_lt ⟨some 1, some 2⟩
    (schedulePage [48, 57, 58, 48, 48] [49, 48, 58, 48, 48]).doc
    [48, 57, 58, 48, 48] [49, 48, 58, 48, 48] (by decide) (by decide)
    (List.Lex.rel (by decide)) rfl rfl

/-- C3: for all strings `a` and `b`, of any form, with `a >= b` in
lexicographic order (`a` equal to `b`, or `b` before `a`), a submit event
with start value `a` and end value `b` shows the alert with the text
"Start time must be earlier than end time." and then calls
`preventDefault`. -/
theorem submit_blocked_of_lex_ge (l : SubmitListener) (doc : Document) (a b : JSString)
    (hab : a = b ∨ List.Lex (· < ·) b a)
    (hs : readValue doc l.startTimeInput = .ok a)
    (he : readValue doc l.endTimeInput = .ok b) :
    (submitHandler l doc).effects =
      [Effect.alert "Start time must be earlier than end time.", Effect.preventDefault] := by
  have hge : strGe a b = true := (strGe_iff_lex a b).2 hab
  rw [submitHandler_of_values l doc a b hs he]
  simp [hge, alertMessage]

/-- Witness for C3: start and end both "09:00". -/
theorem submit_blocked_of_lex_ge_witness :
    (submitHandler ⟨some 1, some 2⟩
      (schedulePage [48, 57, 58, 48, 48] [48, 57, 58, 48, 48]).doc).effects =
      [Effect.alert "Start time must be earlier than end time.", Effect.preventDefault] :=
  submit_blocked_of_lex_ge ⟨some 1, some 2⟩
    (schedulePage [48, 57, 58, 48, 48] [48, 57, 58, 48, 48]).doc
    [48, 57, 58, 48, 48] [48, 57, 58, 48, 48] (Or.inl rfl) rfl rfl

/-- C4: for every non-empty end value `e` in "HH:MM" form, a submission
whose start value is the empty string is allowed: the empty string compares
strictly less than `e`, so no alert is shown and `preventDefault` is not
called. -/
theorem submit_allowed_of_empty_start (l : SubmitListener) (doc : Document) (e : JSString)
    (hne : e ≠ []) (hfmt : isHHMM e = true)
    (hs : readValue doc l.startTimeInput = .ok [])
    (he : readValue doc l.endTimeInput = .ok e) :
    strLt [] e = true ∧ (submitHandler l doc).allowed ∧
    (submitHandler l doc).error = none := by
  have hlt : strLt [] e = true := by
    cases e with
    | nil => exact absurd rfl hne
    | cons y ys => rfl
  have hge : strGe [] e = false := by simp [strGe, hlt]
  rw [submitHandler_of_values l doc [] e hs he]
  simp [hge, hlt, Outcome.allowed]

/-- Witness for C4: empty start, end "09:00". -/
theorem submit_allowed_of_empty_start_witness :
    strLt [] [48, 57, 58, 48, 48] = true ∧
    (submitHandler ⟨some 1, some 2⟩ (schedulePage [] [48, 57, 58, 48, 48]).doc).allowed ∧
    (submitHandler ⟨some 1, some 2⟩ (schedulePage [] [48, 57, 58, 48, 48]).doc).error = none :=
  submit_allowed_of_empty_start ⟨some 1, some 2⟩ (schedulePage [] [48, 57, 58, 48, 48]).doc
    [48, 57, 58, 48, 48] (by decide) (by decide) rfl rfl

/-- C5: for every non-empty start value `s`, a submission whose end value is
the empty string is blocked: the empty string is less than `s`, so the alert
is shown and `preventDefault` is called. -/
theorem submit_blocked_of_empty_end (l : SubmitListener) (doc : Document) (s : JSString)
    (hne : s ≠ [])
    (hs : readValue doc l.startTimeInput = .ok s)
    (he : readValue doc l.endTimeInput = .ok []) :
    strLt [] s = true ∧ (submitHandler l doc).blocked := by
  have hlt : strLt [] s = true := by
    cases s with
    | nil => exact absurd rfl hne
    | cons y ys => rfl
  have hge : strGe s [] = true := by
    cases s with
    | nil => exact absurd rfl hne
    | cons y ys => rfl
  rw [submitHandler_of_values l doc s [] hs he]
  simp [hge, hlt, Outcome.blocked]

/-- Witness for C5: start "09:00", empty end. -/
theorem submit_blocked_of_empty_end_witness :
    strLt [] [48, 57, 58, 48, 48] = true ∧
    (submitHandler ⟨some 1, some 2⟩ (schedulePage [48, 57, 58, 48, 48] []).doc).blocked :=
  submit_blocked_of_empty_end ⟨some 1, some 2⟩ (schedulePage [48, 57, 58, 48, 48] []).doc
    [48, 57, 58, 48, 48] (by decide) rfl rfl

/-- C6: the guard keeps no state across submissions.  In every sequence of
submit events, whatever changes the page undergoes in between, each event
has an outcome, and it is the outcome of a single run of the handler on the
page of that moment; two events, of the same or of different sequences, at
which the same start and end values are read have the same outcome.  So for
every pair with start `>=` end, each of `n` repeated submissions of that
pair is blocked, for every `n >= 1`. -/
theorem submit_stateless (l : SubmitListener) (p : LivePage) (a b : JSString) (n : Nat)
    (hn : 1 ≤ n) (hab : a = b ∨ List.Lex (· < ·) b a)
    (hs : readValue p.objects l.startTimeInput = .ok a)
    (he : readValue p.objects l.endTimeInput = .ok b) :
    (∀ (eds : List (List Edit)) (q : LivePage),
      (submitSequence l eds q).length = eds.length ∧
      ∀ k o, (submitSequence l eds q).get? k = some o →
        o = submitHandler l (pageAt eds q k).objects) ∧
    (∀ (eds₁ eds₂ : List (List Edit)) (q₁ q₂ : LivePage) (k₁ k₂ : Nat) (o₁ o₂ : Outcome),
      (submitSequence l eds₁ q₁).get? k₁ = some o₁ →
      (submitSequence l eds₂ q₂).get? k₂ = some o₂ →
      readValue (pageAt eds₁ q₁ k₁).objects l.startTimeInput =
        readValue (pageAt eds₂ q₂ k₂).objects l.startTimeInput →
      readValue (pageAt eds₁ q₁ k₁).objects l.endTimeInput =
        readValue (pageAt eds₂ q₂ k₂).objects l.endTimeInput →
      o₁.effects = o₂.effects ∧ o₁.error = o₂.error) ∧
    (submitSequence l (List.replicate n []) p).length = n ∧
    (submitSequence l (List.replicate n []) p) ≠ [] ∧
    (∀ o ∈ submitSequence l (List.replicate n []) p, o.blocked) := by
  have hge : strGe a b = true := (strGe_iff_lex a b).2 hab
  have hlen : (submitSequence l (List.replicate n []) p).length = n := by
    rw [submitSequence_length, List.length_replicate]
  refine ⟨?_, ?_, hlen, ?_, ?_⟩
  · intro eds q
    exact ⟨submitSequence_length l eds q, fun k o ho => submitSequence_get l eds q k o ho⟩
  · intro eds₁ eds₂ q₁ q₂ k₁ k₂ o₁ o₂ ho₁ ho₂ hstart hend
    rw [submitSequence_get l eds₁ q₁ k₁ o₁ ho₁, submitSequence_get l eds₂ q₂ k₂ o₂ ho₂]
    exact submitHandler_congr l l _ _ hstart hend
  · intro hnil
    rw [hnil] at hlen
    simp only [List.length_nil] at hlen
    omega
  · clear hn hlen
    induction n generalizing p with
    | zero => intro o ho; simp [submitSequence] at ho
    | succ k ih =>
      intro o ho
      simp only [List.replicate, submitSequence, List.foldl_nil, List.mem_cons,
        submitHandler_doc] at ho
      rcases ho with ho | ho
      · subst ho
        rw [submitHandler_of_values l p.objects a b hs he]
        simp [hge, Outcome.blocked]
      · exact ih p hs he o ho

/-- Witness for C6: three submissions of start "10:00", end "09:00". -/
theorem submit_stateless_witness :
    (∀ (eds : List (List Edit)) (q : LivePage),
      (submitSequence ⟨some 1, some 2⟩ eds q).length = eds.length ∧
      ∀ k o, (submitSequence ⟨some 1, some 2⟩ eds q).get? k = some o →
        o = submitHandler ⟨some 1, some 2⟩ (pageAt eds q k).objects) ∧
    (∀ (eds₁ eds₂ : List (List Edit)) (q₁ q₂ : LivePage) (k₁ k₂ : Nat) (o₁ o₂ : Outcome),
      (submitSequence ⟨some 1, some 2⟩ eds₁ q₁).get? k₁ = some o₁ →
      (submitSequence ⟨some 1, some 2⟩ eds₂ q₂).get? k₂ = some o₂ →
      readValue (pageAt eds₁ q₁ k₁).objects (some 1) =
        readValue (pageAt eds₂ q₂ k₂).objects (some 1) →
      readValue (pageAt eds₁ q₁ k₁).objects (some 2) =
        readValue (pageAt eds₂ q₂ k₂).objects (some 2) →
      o₁.effects = o₂.effects ∧ o₁.error = o₂.error) ∧
    (submitSequence ⟨some 1, some 2⟩ (List.replicate 3 [])
      (LivePage.load (schedulePage [49, 48, 58, 48, 48] [48, 57, 58, 48, 48]).doc)).length
      = 3 ∧
    (submitSequence ⟨some 1, some 2⟩ (List.replicate 3 [])
      (LivePage.load (schedulePage [49, 48, 58, 48, 48] [48, 57, 58, 48, 48]).doc)) ≠ [] ∧
    (∀ o ∈ submitSequence ⟨some 1, some 2⟩ (List.replicate 3 [])
      (LivePage.load (schedulePage [49, 48, 58, 48, 48] [48, 57, 58, 48, 48]).doc),
      o.blocked) :=
  submit_stateless ⟨some 1, some 2⟩
    (LivePage.load (schedulePage [49, 48, 58, 48, 48] [48, 57, 58, 48, 48]).doc)
    [49, 48, 58, 48, 48] [48, 57, 58, 48, 48] 3 (by decide)
    (Or.inr (List.Lex.rel (by decide))) rfl rfl

/-- A submission of start "10:00", end "09:00", then a new element put into
the tree before `start_time`, then a second submission.  A fresh lookup by
position 1 would now find the new element, but the listener holds the
`start_time` object: both submissions are blocked. -/
theorem submitSequence_after_insert :
    ((pageAt [[], [Edit.insert 1 ⟨"input", "note", []⟩]]
        (LivePage.load (schedulePage [49, 48, 58, 48, 48] [48, 57, 58, 48, 48]).doc)
        1).document.elements.map (fun e => e.id)) = ["", "note", "start_time", "end_time"] ∧
    (submitSequence ⟨some 1, some 2⟩ [[], [Edit.insert 1 ⟨"input", "note", []⟩]]
      (LivePage.load (schedulePage [49, 48, 58, 48, 48] [48, 57, 58, 48, 48]).doc)).map
      (fun o => (o.effects, o.error)) =
      [([Effect.alert alertMessage, Effect.preventDefault], none),
       ([Effect.alert alertMessage, Effect.preventDefault], none)] := by
  constructor <;> decide

/-- A submission of start "10:00", end "09:00", then `end_time` removed from
the tree, then a second submission.  The listener still holds the removed
object and reads its value: both submissions are blocked. -/
theorem submitSequence_after_remove :
    ((pageAt [[], [Edit.remove 2]]
        (LivePage.load (schedulePage [49, 48, 58, 48, 48] [48, 57, 58, 48, 48]).doc)
        1).document.elements.map (fun e => e.id)) = ["", "start_time"] ∧
    (submitSequence ⟨some 1, some 2⟩ [[], [Edit.remove 2]]
      (LivePage.load (schedulePage [49, 48, 58, 48, 48] [48, 57, 58, 48, 48]).doc)).map
      (fun o => (o.effects, o.error)) =
      [([Effect.alert alertMessage, Effect.preventDefault], none),
       ([Effect.alert alertMessage, Effect.preventDefault], none)] := by
  constructor <;> decide

/-- A blocked submission of start "10:00", end "09:00", the user setting the
start to "08:00", and a second submission, which is allowed: the first
outcome leaves nothing behind. -/
theorem submitSequence_after_setValue :
    (submitSequence ⟨some 1, some 2⟩ [[], [Edit.setValue 1 [48, 56, 58, 48, 48]]]
      (LivePage.load (schedulePage [49, 48, 58, 48, 48] [48, 57, 58, 48, 48]).doc)).map
      (fun o => (o.effects, o.error)) =
      [([Effect.alert alertMessage, Effect.preventDefault], none), ([], none)] := by
  decide

/-- C8: handling a submit event never writes the page state it reads: the
document after the handler is the document before it, so the start and end
values read after the handler returns are the ones read before it ran, in
the allowed and in the blocked branch alike. -/
theorem submit_preserves_values (l : SubmitListener) (doc : Document) (a b : JSString)
    (hs : readValue doc l.startTimeInput = .ok a)
    (he : readValue doc l.endTimeInput = .ok b) :
    (submitHandler l doc).doc = doc ∧
    readValue (submitHandler l doc).doc l.startTimeInput = .ok a ∧
    readValue (submitHandler l doc).doc l.endTimeInput = .ok b ∧
    ((submitHandler l doc).allowed ∨ (submitHandler l doc).blocked) := by
  refine ⟨submitHandler_doc l doc, ?_, ?_, ?_⟩
  · rw [submitHandler_doc]; exact hs
  · rw [submitHandler_doc]; exact he
  · exact submitHandler_effects l doc

/-- Witness for C8: start "10:00", end "09:00" (the blocked branch). -/
theorem submit_preserves_values_witness :
    (submitHandler ⟨some 1, some 2⟩
      (schedulePage [49, 48, 58, 48, 48] [48, 57, 58, 48, 48]).doc).doc =
      (schedulePage [49, 48, 58, 48, 48] [48, 57, 58, 48, 48]).doc ∧
    readValue (submitHandler ⟨some 1, some 2⟩
      (schedulePage [49, 48, 58, 48, 48] [48, 57, 58, 48, 48]).doc).doc (some 1) =
      .ok [49, 48, 58, 48, 48] ∧
    readValue (submitHandler ⟨some 1, some 2⟩
      (schedulePage [49, 48, 58, 48, 48] [48, 57, 58, 48, 48]).doc).doc (some 2) =
      .ok [48, 57, 58, 48, 48] ∧
    ((submitHandler ⟨some 1, some 2⟩
      (schedulePage [49, 48, 58, 48, 48] [48, 57, 58, 48, 48]).doc).allowed ∨
     (submitHandler ⟨some 1, some 2⟩
      (schedulePage [49, 48, 58, 48, 48] [48, 57, 58, 48, 48]).doc).blocked) :=
  submit_preserves_values ⟨some 1, some 2⟩
    (schedulePage [49, 48, 58, 48, 48] [48, 57, 58, 48, 48]).doc
    [49, 48, 58, 48, 48] [48, 57, 58, 48, 48] rfl rfl

/-- C9: for every page state the submit handler shows the alert exactly when
it calls `preventDefault`; when it does both, each happens once per event
and the alert comes before the cancellation.  No submission is cancelled
silently and no alert is shown for a submission that proceeds. -/
theorem alert_iff_preventDefault (l : SubmitListener) (doc : Document) :
    ((∃ m, Effect.alert m ∈ (submitHandler l doc).effects) ↔
      Effect.preventDefault ∈ (submitHandler l doc).effects) ∧
    (Effect.preventDefault ∈ (submitHandler l doc).effects →
      (submitHandler l doc).effects =
        [Effect.alert alertMessage, Effect.preventDefault]) ∧
    ((submitHandler l doc).effects.filter (fun e => e != Effect.preventDefault)).length ≤ 1 ∧
    (submitHandler l doc).effects.count Effect.preventDefault ≤ 1 := by
  rcases submitHandler_effects l doc with h | h <;> rw [h] <;> simp

/-- C10: outside the zero-padded "HH:MM" form the guard can disagree with
chronological order: start "9:00" denotes a time strictly earlier than end
"10:00", yet "9:00" >= "10:00" as strings and the handler blocks the
submission.  The handler makes no format check: for all strings, whatever
their form, it throws nothing and blocks exactly when the string comparison
`startTime >= endTime` holds. -/
theorem unpadded_start_blocked :
    isHHMM [57, 58, 48, 48] = false ∧
    minutesOf [57, 58, 48, 48] = some 540 ∧
    minutesOf [49, 48, 58, 48, 48] = some 600 ∧
    strGe [57, 58, 48, 48] [49, 48, 58, 48, 48] = true ∧
    (submitHandler ⟨some 1, some 2⟩
      (schedulePage [57, 58, 48, 48] [49, 48, 58, 48, 48]).doc).blocked ∧
    (∀ (l : SubmitListener) (doc : Document) (a b : JSString),
      readValue doc l.startTimeInput = .ok a → readValue doc l.endTimeInput = .ok b →
      (submitHandler l doc).error = none ∧
      ((submitHandler l doc).blocked ↔ strGe a b = true) ∧
      ((submitHandler l doc).allowed ↔ strGe a b = false)) := by
  refine ⟨by decide, by decide, by decide, by decide, by decide, ?_⟩
  intro l doc a b hs he
  rw [submitHandler_of_values l doc a b hs he]
  by_cases hc : strGe a b = true <;> simp [hc, Outcome.blocked, Outcome.allowed]

/-! ## Properties of the initialisation -/

/-- C7: initialisation fails exactly when the document has no `form`
element.  With no form it throws and leaves the page as it was, no handler
installed; with a form it throws nothing and adds one submit handler, on the
first form in document order, holding whatever the lookups of `start_time`
and `end_time` gave, found or not. -/
theorem init_fails_iff_no_form (page : Page) :
    ((init page).2 ≠ none ↔ ∀ e ∈ page.doc.elements, e.tag ≠ "form") ∧
    ((∀ e ∈ page.doc.elements, e.tag ≠ "form") →
      init page = (page, some JSError.typeError)) ∧
    (∀ (f : ElemRef) (e : Element), page.doc.elements.get? f = some e → e.tag = "form" →
      (∀ j e', j < f → page.doc.elements.get? j = some e' → e'.tag ≠ "form") →
      (init page).2 = none ∧ (init page).1.doc = page.doc ∧
      ∃ s t : Option ElemRef, (init page).1.listeners = page.listeners ++ [(f, ⟨s, t⟩)] ∧
        s = getElementById page.doc "start_time" ∧
        t = getElementById page.doc "end_time") := by
  have hnone : querySelector page.doc "form" = none ↔
      ∀ e ∈ page.doc.elements, e.tag ≠ "form" := by
    unfold querySelector
    rw [firstIndex_eq_none_iff]
    simp
  refine ⟨?_, ?_, ?_⟩
  · rw [← hnone]
    unfold init
    cases hq : querySelector page.doc "form" <;> simp
  · intro h
    unfold init
    simp [hnone.2 h]
  · intro f e hget htag hmin
    have hq : querySelector page.doc "form" = some f := by
      unfold querySelector
      rw [firstIndex_eq_some_iff]
      refine ⟨⟨e, hget, by simpa using htag⟩, ?_⟩
      intro j e' hj hj'
      simpa using hmin j e' hj hj'
    unfold init
    simp [hq]

/-- Initialisation of a page whose only element is a form: it succeeds and
the listener holds `null` for both inputs, so a later submit throws without
alert or cancellation. -/
theorem init_without_inputs :
    init ⟨⟨[⟨"form", "", []⟩]⟩, []⟩ = (⟨⟨[⟨"form", "", []⟩]⟩, [(0, ⟨none, none⟩)]⟩, none) ∧
    submitHandler ⟨none, none⟩ ⟨[⟨"form", "", []⟩]⟩ =
      ⟨⟨[⟨"form", "", []⟩]⟩, [], some JSError.typeError⟩ := by
  constructor <;> rfl

/-- Initialisation of the schedule page installs the listener the examples
above use. -/
theorem init_schedulePage (a b : JSString) :
    init (schedulePage a b) =
      (⟨(schedulePage a b).doc, [(0, ⟨some 1, some 2⟩)]⟩, none) := by
  rfl

/-- Initialisation of a page without a form throws. -/
theorem init_without_form :
    init ⟨⟨[⟨"input", "start_time", []⟩, ⟨"input", "end_time", []⟩]⟩, []⟩ =
      (⟨⟨[⟨"input", "start_time", []⟩, ⟨"input", "end_time", []⟩]⟩, []⟩,
        some JSError.typeError) := by
  rfl

end SubmissionGuard
